import Mathlib

/-!
Verification of the file-upload indexing service (x-pack file_upload plugin).

The development shallowly embeds the browser-side import pipeline:
the batch splitter (lodash chunk at CHUNK_SIZE = 10000), the per-batch
retry loop (IMPORT_RETRIES = 5) around the external writeToIndex call,
the chunked importer chunkDataAndWriteToIndex, the transform resolver
transformDataByFormatForIndexing, and the top-level entry point indexData.

The external HTTP call writeToIndex is abstracted as an oracle
w : batch index -> batch data -> attempt number -> response; the fields of
the request that only flow into that call (id, settings, mappings,
ingestPipeline) are absorbed into the oracle and do not appear separately.
Alongside the returned object, the embedded importer also returns the
observable call trace: the number of writeToIndex calls issued per batch,
in batch order, so that claims about call counts are statable.
-/

namespace FileUpload

/-- Source constant CHUNK_SIZE = 10000. -/
def CHUNK_SIZE : Nat := 10000

/-- Source constant IMPORT_RETRIES = 5. -/
def IMPORT_RETRIES : Nat := 5

/-- Response shape of one writeToIndex call, and also the shape of the
loop-local resp variable: success flag, per-document failures (of an
abstract type), a document count, and an optional error message.
The initial resp literal in the source has no error field, modelled as none. -/
structure BatchResp (β : Type) where
  success : Bool
  failures : List β
  docCount : Nat
  error : Option String
  deriving DecidableEq, Repr

/-- JavaScript truthiness of an optional string: undefined and the empty
string are falsy, every other string is truthy. -/
def jsTruthy : Option String → Bool
  | none => false
  | some s => !(s == "")

/-- The result object built by chunkDataAndWriteToIndex.  The early
no-index return carries neither a failures nor a docCount field, so both
are optional here; the error field is spread in only when truthy. -/
structure ImportResult (β : Type) where
  success : Bool
  failures : Option (List β)
  docCount : Option Nat
  error : Option String
  deriving DecidableEq, Repr

/-- Fuel-indexed worker for the lodash chunk function: repeatedly peels
take n off the front.  The fuel starts at the length of the list, which
suffices because each step consumes at least one element when n is
positive; the fuel-exhausted arm is unreachable under that regime. -/
def chunkGo (n : Nat) : List α → Nat → List (List α)
  | [], _ => []
  | _ :: _, 0 => []
  | x :: xs, fuel + 1 => (x :: xs).take n :: chunkGo n ((x :: xs).drop n) fuel

/-- lodash chunk(xs, n): splits xs into consecutive runs of n elements,
the last run possibly shorter; size 0 yields no chunks, as in lodash. -/
def chunkList (n : Nat) (xs : List α) : List (List α) :=
  if n = 0 then [] else chunkGo n xs xs.length

/-- The loop-local resp initial value: { success: false, failures: [], docCount: 0 }. -/
def initResp : BatchResp β := ⟨false, [], 0, none⟩

/-- The retry while-loop for one batch.  w maps an attempt number to the
response of that writeToIndex call; resp is the current response, made the
number of calls already issued, and the last argument the remaining
retries counter.  Returns the final response together with the total
number of calls issued. -/
def retryWrites (w : Nat → BatchResp β) : BatchResp β → Nat → Nat → BatchResp β × Nat
  | resp, made, 0 => (resp, made)
  | resp, made, retries + 1 =>
    if resp.success then (resp, made)
    else retryWrites w (w made) (made + 1) retries

/-- One batch of the import: run the retry loop from the initial resp with
IMPORT_RETRIES retries remaining and no calls made yet. -/
def batchAttempt (w : Nat → BatchResp β) : BatchResp β × Nat :=
  retryWrites w initResp 0 IMPORT_RETRIES

/-- The for-loop over chunks.  i is the index of the first chunk of cs in
the whole chunk list, fs the failures accumulated so far and d the current
docCount.  Per iteration: run the batch retry loop, append the final
response's failures, then either adopt the response's docCount and
continue, or stop with success false, docCount 0 and the response's error.
The second component is the per-batch writeToIndex call trace. -/
def writeChunks (w : Nat → List α → Nat → BatchResp β) :
    Nat → List (List α) → List β → Nat → BatchResp β × List Nat
  | _, [], fs, d => (⟨true, fs, d, none⟩, [])
  | i, c :: rest, fs, _d =>
    let r := batchAttempt (w i c)
    if r.1.success then
      let rec2 := writeChunks w (i + 1) rest (fs ++ r.1.failures) r.1.docCount
      (rec2.1, r.2 :: rec2.2)
    else
      (⟨false, fs ++ r.1.failures, 0, r.1.error⟩, [r.2])

/-- chunkDataAndWriteToIndex from the source: an empty index name fails
fast with No index supplied (and no failures or docCount fields); else the
data is chunked at CHUNK_SIZE and the chunk loop runs from success true,
empty failures and docCount 0.  The error field is included only when
truthy, mirroring the conditional spread in the source.  The second
component of the result is the per-batch call trace (empty means no
writeToIndex call was issued at all). -/
def chunkDataAndWriteToIndex (w : Nat → List α → Nat → BatchResp β)
    (index : String) (data : List α) : ImportResult β × List Nat :=
  if index = "" then
    (⟨false, none, none, some "No index supplied"⟩, [])
  else
    let out := writeChunks w 0 (chunkList CHUNK_SIZE data) [] 0
    (⟨out.1.success, some out.1.failures, some out.1.docCount,
      if jsTruthy out.1.error then out.1.error else none⟩, out.2)

/-- A transform descriptor as the source can receive it: absent
(undefined or null), a plain string tag, or a custom object carrying a
getIndexingDetails capability (abstracted to a value of type γ). -/
inductive Transform (γ : Type) where
  | missing
  | tag (s : String)
  | custom (g : γ)
  deriving DecidableEq

/-- JavaScript truthiness of a transform descriptor: undefined and the
empty string are falsy; every non-empty string and every object is truthy. -/
def Transform.falsy : Transform γ → Bool
  | .missing => true
  | .tag s => s == ""
  | .custom _ => false

/-- The indexing details bundle a transform produces.  Only the data field
is observable through the abstracted writer; the remaining fields (index,
settings, mappings, ingestPipeline) flow solely into the writeToIndex call
and are absorbed into the writer oracle. -/
structure IndexingDetails (α : Type) where
  data : List α
  deriving DecidableEq, Repr

/-- Return shape of transformDataByFormatForIndexing: a success flag, the
details on success, an error message on failure. -/
structure TransformResult (α : Type) where
  success : Bool
  indexingDetails : Option (IndexingDetails α)
  error : Option String
  deriving DecidableEq, Repr

/-- transformDataByFormatForIndexing from the source.  getGeo stands for
the external getGeoJsonIndexingDetails and getCustom for the custom
object's getIndexingDetails call, each possibly returning no details
(null/undefined).  A falsy descriptor fails with No transform defined; a
non-object descriptor other than the geo tag returns the unhandled-tag
error with the tag interpolated (for the unreachable missing case the
interpolation of undefined is spelled out); otherwise null details yield
the unknown-error result and non-null details succeed. -/
def transformDataByFormatForIndexing (getGeo : φ → σ → Option (IndexingDetails α))
    (getCustom : γ → φ → Option (IndexingDetails α))
    (transform : Transform γ) (parsedFile : φ) (dataType : σ) : TransformResult α :=
  if transform.falsy then
    ⟨false, none, some "No transform defined"⟩
  else
    match transform with
    | .tag s =>
      if s = "geo" then
        match getGeo parsedFile dataType with
        | some details => ⟨true, some details, none⟩
        | none => ⟨false, none, some ("Unknown error performing transform: " ++ s)⟩
      else
        ⟨false, none, some ("No handling defined for transform: " ++ s)⟩
    | .custom g =>
      match getCustom g parsedFile with
      | some details => ⟨true, some details, none⟩
      | none => ⟨false, none, some "Unknown error performing transform: [object Object]"⟩
    | .missing => ⟨false, none, some "No handling defined for transform: undefined"⟩

/-- indexData from the source, the top-level entry point.  Thrown strings
are modelled as Except.error.  parsedFile is optional, a falsy file throws
No file imported; a failed transform throws the wrapped transform error; a
create call whose response carries no truthy id throws Error creating
index (createId is the id field of the abstracted index-creation
response); otherwise the chunked importer runs on the transformed data
(an absent data field chunks like the empty list, as lodash does) and its
returned object is the result. -/
def indexData (w : Nat → List α → Nat → BatchResp β) (createId : Option String)
    (getGeo : φ → σ → Option (IndexingDetails α))
    (getCustom : γ → φ → Option (IndexingDetails α))
    (parsedFile : Option φ) (transform : Transform γ)
    (indexName : String) (dataType : σ) : Except String (ImportResult β) :=
  match parsedFile with
  | none => Except.error "No file imported"
  | some pf =>
    let tr := transformDataByFormatForIndexing getGeo getCustom transform pf dataType
    if tr.success = false then
      Except.error ("Error transforming data: " ++ tr.error.getD "undefined")
    else if jsTruthy createId = false then
      Except.error "Error creating index"
    else
      Except.ok (chunkDataAndWriteToIndex w indexName
        ((tr.indexingDetails.map IndexingDetails.data).getD [])).1

/-- An always-succeeding writer whose reported docCount is the length of
the batch it was handed, used to instantiate concrete runs. -/
def okWriter : Nat → List Nat → Nat → BatchResp Nat :=
  fun _ c _ => ⟨true, [], c.length, none⟩

/-- An always-failing writer with a fixed truthy error, used to
instantiate concrete runs. -/
def failWriter : Nat → List Nat → Nat → BatchResp Nat :=
  fun _ _ _ => ⟨false, [], 0, some "boom"⟩

/-- A writer whose first attempt on any batch fails while reporting the
per-document failure 7, and whose later attempts succeed reporting no
failures, used to instantiate a run in which a batch is retried after a
partial failure. -/
def retryOnceWriter : Nat → List Nat → Nat → BatchResp Nat :=
  fun _ _ a => if a = 0 then ⟨false, [7], 0, none⟩ else ⟨true, [], 1, none⟩

/-! ### Properties of the batch splitter -/

theorem chunkGo_nil (n fuel : Nat) : chunkGo n ([] : List α) fuel = [] := by
  cases fuel <;> rfl

theorem chunkGo_cons (n : Nat) (xs : List α) (fuel : Nat) (hx : xs ≠ []) :
    chunkGo n xs (fuel + 1) = xs.take n :: chunkGo n (xs.drop n) fuel := by
  cases xs with
  | nil => exact absurd rfl hx
  | cons x l => rfl

theorem chunkGo_flatten (n : Nat) (hn : n ≠ 0) :
    ∀ (fuel : Nat) (xs : List α), xs.length ≤ fuel → (chunkGo n xs fuel).flatten = xs := by
  intro fuel
  induction fuel with
  | zero =>
    intro xs hx
    have hxs : xs = [] := List.length_eq_zero.mp (Nat.le_zero.mp hx)
    subst hxs
    simp [chunkGo_nil]
  | succ f ih =>
    intro xs hx
    cases xs with
    | nil => simp [chunkGo_nil]
    | cons x l =>
      have hlen : ((x :: l).drop n).length ≤ f := by
        simp only [List.length_drop, List.length_cons] at hx ⊢
        omega
      rw [chunkGo_cons n (x :: l) f (by simp), List.flatten_cons, ih ((x :: l).drop n) hlen,
        List.take_append_drop]

theorem chunkGo_ne_nil (n : Nat) (xs : List α) (fuel : Nat) (hx : xs ≠ []) (hf : 1 ≤ fuel) :
    chunkGo n xs fuel ≠ [] := by
  cases fuel with
  | zero => omega
  | succ f => rw [chunkGo_cons n xs f hx]; simp

theorem chunkGo_dropLast_length (n : Nat) (hn : n ≠ 0) :
    ∀ (fuel : Nat) (xs : List α), xs.length ≤ fuel →
      ∀ c ∈ (chunkGo n xs fuel).dropLast, c.length = n := by
  intro fuel
  induction fuel with
  | zero =>
    intro xs hx c hc
    have hxs : xs = [] := List.length_eq_zero.mp (Nat.le_zero.mp hx)
    subst hxs
    simp [chunkGo_nil] at hc
  | succ f ih =>
    intro xs hx c hc
    cases xs with
    | nil => simp [chunkGo_nil] at hc
    | cons x l =>
      rw [chunkGo_cons n (x :: l) f (by simp)] at hc
      by_cases hd : (x :: l).drop n = []
      · rw [hd, chunkGo_nil] at hc
        simp at hc
      · have hdlen : 1 ≤ ((x :: l).drop n).length := by
          rcases Nat.eq_zero_or_pos ((x :: l).drop n).length with h0 | h1
          · exact absurd (List.length_eq_zero.mp h0) hd
          · exact h1
        have hlen : ((x :: l).drop n).length ≤ f := by
          simp only [List.length_drop, List.length_cons] at hx ⊢
          omega
        have hne := chunkGo_ne_nil n ((x :: l).drop n) f hd (le_trans hdlen hlen)
        rw [List.dropLast_cons_of_ne_nil hne, List.mem_cons] at hc
        rcases hc with hc | hc
        · subst hc
          have hnlt : n < (x :: l).length := by
            by_contra hle
            exact hd (List.drop_eq_nil_iff.mpr (by omega))
          rw [List.length_take]
          omega
        · exact ih ((x :: l).drop n) hlen c hc

theorem chunkGo_length_le (n : Nat) :
    ∀ (fuel : Nat) (xs : List α), ∀ c ∈ chunkGo n xs fuel, c.length ≤ n := by
  intro fuel
  induction fuel with
  | zero =>
    intro xs c hc
    cases xs <;> simp [chunkGo_nil, chunkGo] at hc
  | succ f ih =>
    intro xs c hc
    cases xs with
    | nil => simp [chunkGo_nil] at hc
    | cons x l =>
      rw [chunkGo_cons n (x :: l) f (by simp), List.mem_cons] at hc
      rcases hc with hc | hc
      · subst hc; exact List.length_take_le n (x :: l)
      · exact ih ((x :: l).drop n) c hc

theorem chunkList_flatten (n : Nat) (hn : n ≠ 0) (xs : List α) :
    (chunkList n xs).flatten = xs := by
  rw [chunkList, if_neg hn]
  exact chunkGo_flatten n hn xs.length xs le_rfl

theorem chunkList_dropLast_length (n : Nat) (hn : n ≠ 0) (xs : List α) :
    ∀ c ∈ (chunkList n xs).dropLast, c.length = n := by
  rw [chunkList, if_neg hn]
  exact chunkGo_dropLast_length n hn xs.length xs le_rfl

theorem chunkList_length_le (n : Nat) (xs : List α) :
    ∀ c ∈ chunkList n xs, c.length ≤ n := by
  rw [chunkList]
  by_cases h : n = 0
  · simp [h]
  · rw [if_neg h]
    exact chunkGo_length_le n xs.length xs

/-! ### Properties of the per-batch retry loop -/

theorem retryWrites_of_success (w' : Nat → BatchResp β) (resp : BatchResp β) (made r : Nat)
    (h : resp.success = true) : retryWrites w' resp made r = (resp, made) := by
  cases r with
  | zero => rfl
  | succ r => simp [retryWrites, h]

theorem retryWrites_all_fail (w' : Nat → BatchResp β) :
    ∀ (r made : Nat) (resp : BatchResp β), r ≠ 0 → resp.success = false →
      (∀ a, made ≤ a → a < made + r → (w' a).success = false) →
      retryWrites w' resp made r = (w' (made + r - 1), made + r) := by
  intro r
  induction r with
  | zero => intro made resp h; exact absurd rfl h
  | succ r ih =>
    intro made resp _ hresp hall
    simp only [retryWrites, hresp, Bool.false_eq_true, if_false]
    by_cases hr : r = 0
    · subst hr
      simp only [retryWrites]
      have e1 : made + 1 - 1 = made := by omega
      rw [e1]
    · have hfirst : (w' made).success = false := hall made le_rfl (by omega)
      rw [ih (made + 1) (w' made) hr hfirst (fun a ha hb => hall a (by omega) (by omega))]
      have e1 : made + 1 + r - 1 = made + (r + 1) - 1 := by omega
      have e2 : made + 1 + r = made + (r + 1) := by omega
      rw [e1, e2]

theorem retryWrites_first_success (w' : Nat → BatchResp β) :
    ∀ (r made : Nat) (resp : BatchResp β) (t : Nat), resp.success = false →
      made ≤ t → t < made + r →
      (∀ a, made ≤ a → a < t → (w' a).success = false) →
      (w' t).success = true →
      retryWrites w' resp made r = (w' t, t + 1) := by
  intro r
  induction r with
  | zero => intro made resp t _ h1 h2 _ _; omega
  | succ r ih =>
    intro made resp t hresp hmt htr hfail hsucc
    simp only [retryWrites, hresp, Bool.false_eq_true, if_false]
    by_cases hmt2 : made = t
    · subst hmt2
      exact retryWrites_of_success w' (w' made) (made + 1) r hsucc
    · have hlt : made < t := lt_of_le_of_ne hmt hmt2
      exact ih (made + 1) (w' made) t (hfail made le_rfl hlt) (by omega) (by omega)
        (fun a ha hb => hfail a (by omega) hb) hsucc

theorem batchAttempt_all_fail (w' : Nat → BatchResp β)
    (h : ∀ a, a < IMPORT_RETRIES → (w' a).success = false) :
    batchAttempt w' = (w' 4, 5) := by
  have hb := retryWrites_all_fail w' IMPORT_RETRIES 0 initResp (by simp [IMPORT_RETRIES])
    rfl (fun a _ hb => h a (by simpa using hb))
  simpa [batchAttempt, IMPORT_RETRIES] using hb

theorem batchAttempt_first_success (w' : Nat → BatchResp β) (t : Nat)
    (ht : t < IMPORT_RETRIES)
    (hfail : ∀ a, a < t → (w' a).success = false)
    (hsucc : (w' t).success = true) :
    batchAttempt w' = (w' t, t + 1) := by
  exact retryWrites_first_success w' IMPORT_RETRIES 0 initResp t rfl (Nat.zero_le t)
    (by simpa using ht) (fun a _ hb => hfail a hb) hsucc

/-! ### Properties of the chunk loop -/

theorem writeChunks_nil (w : Nat → List α → Nat → BatchResp β) (i : Nat) (fs : List β)
    (d : Nat) : writeChunks w i [] fs d = (⟨true, fs, d, none⟩, []) := rfl

theorem writeChunks_cons_succ (w : Nat → List α → Nat → BatchResp β) (i : Nat)
    (c : List α) (rest : List (List α)) (fs : List β) (d : Nat)
    (h : (batchAttempt (w i c)).1.success = true) :
    writeChunks w i (c :: rest) fs d =
      ((writeChunks w (i + 1) rest (fs ++ (batchAttempt (w i c)).1.failures)
          (batchAttempt (w i c)).1.docCount).1,
        (batchAttempt (w i c)).2 ::
          (writeChunks w (i + 1) rest (fs ++ (batchAttempt (w i c)).1.failures)
            (batchAttempt (w i c)).1.docCount).2) := by
  simp only [writeChunks]
  rw [if_pos h]

theorem writeChunks_cons_fail (w : Nat → List α → Nat → BatchResp β) (i : Nat)
    (c : List α) (rest : List (List α)) (fs : List β) (d : Nat)
    (h : (batchAttempt (w i c)).1.success = false) :
    writeChunks w i (c :: rest) fs d =
      (⟨false, fs ++ (batchAttempt (w i c)).1.failures, 0, (batchAttempt (w i c)).1.error⟩,
        [(batchAttempt (w i c)).2]) := by
  simp only [writeChunks]
  rw [if_neg (by simp [h])]

theorem writeChunks_success_false_docCount (w : Nat → List α → Nat → BatchResp β) :
    ∀ (cs : List (List α)) (i : Nat) (fs : List β) (d : Nat),
      (writeChunks w i cs fs d).1.success = false →
      (writeChunks w i cs fs d).1.docCount = 0 := by
  intro cs
  induction cs with
  | nil => intro i fs d h; rw [writeChunks_nil] at h; simp at h
  | cons c rest ih =>
    intro i fs d h
    by_cases hs : (batchAttempt (w i c)).1.success = true
    · rw [writeChunks_cons_succ w i c rest fs d hs] at h ⊢
      exact ih (i + 1) _ _ h
    · rw [writeChunks_cons_fail w i c rest fs d (by simpa using hs)]

theorem writeChunks_fail_at (w : Nat → List α → Nat → BatchResp β) :
    ∀ (cs : List (List α)) (i : Nat) (fs : List β) (d : Nat) (j : Nat),
      j < cs.length →
      (∀ k, k < j → (batchAttempt (w (i + k) (cs.getD k []))).1.success = true) →
      (batchAttempt (w (i + j) (cs.getD j []))).1.success = false →
      (writeChunks w i cs fs d).1.success = false ∧
      (writeChunks w i cs fs d).1.docCount = 0 ∧
      (writeChunks w i cs fs d).1.error = (batchAttempt (w (i + j) (cs.getD j []))).1.error ∧
      (writeChunks w i cs fs d).2.length = j + 1 ∧
      (writeChunks w i cs fs d).2.getD j 0 = (batchAttempt (w (i + j) (cs.getD j []))).2 := by
  intro cs
  induction cs with
  | nil => intro i fs d j hj; simp at hj
  | cons c rest ih =>
    intro i fs d j hj hprev hfail
    cases j with
    | zero =>
      simp only [List.getD_cons_zero, Nat.add_zero] at hfail ⊢
      rw [writeChunks_cons_fail w i c rest fs d hfail]
      simp
    | succ j =>
      have h0 : (batchAttempt (w i c)).1.success = true := by
        have := hprev 0 (Nat.succ_pos j)
        simpa using this
      rw [writeChunks_cons_succ w i c rest fs d h0]
      have hprev2 : ∀ k, k < j →
          (batchAttempt (w (i + 1 + k) (rest.getD k []))).1.success = true := by
        intro k hk
        have := hprev (k + 1) (by omega)
        rw [List.getD_cons_succ] at this
        have e : i + (k + 1) = i + 1 + k := by omega
        rw [e] at this
        exact this
      have hfail2 : (batchAttempt (w (i + 1 + j) (rest.getD j []))).1.success = false := by
        rw [List.getD_cons_succ] at hfail
        have e : i + (j + 1) = i + 1 + j := by omega
        rw [e] at hfail
        exact hfail
      have hj2 : j < rest.length := by simp at hj; omega
      obtain ⟨r1, r2, r3, r4, r5⟩ := ih (i + 1) (fs ++ (batchAttempt (w i c)).1.failures)
        (batchAttempt (w i c)).1.docCount j hj2 hprev2 hfail2
      refine ⟨r1, r2, ?_, ?_, ?_⟩
      · rw [r3, List.getD_cons_succ]
        have e : i + 1 + j = i + (j + 1) := by omega
        rw [e]
      · simp only [List.length_cons, r4]
      · rw [List.getD_cons_succ, r5, List.getD_cons_succ]
        have e : i + 1 + j = i + (j + 1) := by omega
        rw [e]

theorem writeChunks_calls_getD (w : Nat → List α → Nat → BatchResp β) :
    ∀ (cs : List (List α)) (i : Nat) (fs : List β) (d : Nat) (j : Nat),
      j < cs.length →
      (∀ k, k < j → (batchAttempt (w (i + k) (cs.getD k []))).1.success = true) →
      (writeChunks w i cs fs d).2.getD j 0 = (batchAttempt (w (i + j) (cs.getD j []))).2 := by
  intro cs
  induction cs with
  | nil => intro i fs d j hj; simp at hj
  | cons c rest ih =>
    intro i fs d j hj hprev
    by_cases hs : (batchAttempt (w i c)).1.success = true
    · rw [writeChunks_cons_succ w i c rest fs d hs]
      cases j with
      | zero => simp
      | succ j =>
        simp only [List.getD_cons_succ]
        have hprev2 : ∀ k, k < j →
            (batchAttempt (w (i + 1 + k) (rest.getD k []))).1.success = true := by
          intro k hk
          have := hprev (k + 1) (by omega)
          rw [List.getD_cons_succ] at this
          have e : i + (k + 1) = i + 1 + k := by omega
          rw [e] at this
          exact this
        have hj2 : j < rest.length := by simp at hj; omega
        rw [ih (i + 1) _ _ j hj2 hprev2]
        have e : i + 1 + j = i + (j + 1) := by omega
        rw [e]
    · cases j with
      | zero =>
        rw [writeChunks_cons_fail w i c rest fs d (by simpa using hs)]
        simp
      | succ j =>
        exact absurd (by simpa using hprev 0 (Nat.succ_pos j)) hs

theorem writeChunks_failures (w : Nat → List α → Nat → BatchResp β) :
    ∀ (cs : List (List α)) (i : Nat) (fs : List β) (d : Nat),
      (writeChunks w i cs fs d).1.failures =
        fs ++ ((List.range (writeChunks w i cs fs d).2.length).map
          (fun j => (batchAttempt (w (i + j) (cs.getD j []))).1.failures)).flatten := by
  intro cs
  induction cs with
  | nil => intro i fs d; simp [writeChunks_nil]
  | cons c rest ih =>
    intro i fs d
    by_cases hs : (batchAttempt (w i c)).1.success = true
    · rw [writeChunks_cons_succ w i c rest fs d hs]
      simp only [List.length_cons, List.range_succ_eq_map, List.map_cons, List.map_map,
        List.flatten_cons, Nat.add_zero, List.getD_cons_zero]
      rw [ih (i + 1) (fs ++ (batchAttempt (w i c)).1.failures) (batchAttempt (w i c)).1.docCount]
      rw [List.append_assoc]
      have hfun : ((fun j => (batchAttempt (w (i + j) ((c :: rest).getD j []))).1.failures) ∘
          Nat.succ) = fun j => (batchAttempt (w (i + 1 + j) (rest.getD j []))).1.failures := by
        funext a
        simp only [Function.comp_apply, Nat.succ_eq_add_one, List.getD_cons_succ]
        have e : i + (a + 1) = i + 1 + a := by omega
        rw [e]
      rw [hfun]
    · rw [writeChunks_cons_fail w i c rest fs d (by simpa using hs)]
      simp [List.range_succ]

/-! ### Unfolding the importer on a non-empty index, and writer-specific runs -/

theorem chunkDataAndWriteToIndex_of_ne (w : Nat → List α → Nat → BatchResp β)
    (index : String) (data : List α) (h : index ≠ "") :
    chunkDataAndWriteToIndex w index data =
      (⟨(writeChunks w 0 (chunkList CHUNK_SIZE data) [] 0).1.success,
        some (writeChunks w 0 (chunkList CHUNK_SIZE data) [] 0).1.failures,
        some (writeChunks w 0 (chunkList CHUNK_SIZE data) [] 0).1.docCount,
        if jsTruthy (writeChunks w 0 (chunkList CHUNK_SIZE data) [] 0).1.error then
          (writeChunks w 0 (chunkList CHUNK_SIZE data) [] 0).1.error else none⟩,
        (writeChunks w 0 (chunkList CHUNK_SIZE data) [] 0).2) := by
  simp only [chunkDataAndWriteToIndex, if_neg h]

theorem batchAttempt_of_writer_ok (w : Nat → List α → Nat → BatchResp β)
    (hw : ∀ i c a, w i c a = ⟨true, [], c.length, none⟩) (i : Nat) (c : List α) :
    batchAttempt (w i c) = (⟨true, [], c.length, none⟩, 1) := by
  have h := batchAttempt_first_success (w i c) 0 (by simp [IMPORT_RETRIES])
    (fun a ha => absurd ha (Nat.not_lt_zero a)) (by rw [hw])
  rw [hw] at h
  exact h

theorem writeChunks_last_docCount (w : Nat → List α → Nat → BatchResp β)
    (hw : ∀ i c a, w i c a = ⟨true, [], c.length, none⟩) :
    ∀ (cs : List (List α)) (c : List α) (i : Nat) (fs : List β) (d : Nat),
      (writeChunks w i (cs ++ [c]) fs d).1.docCount = c.length := by
  intro cs
  induction cs with
  | nil =>
    intro c i fs d
    rw [List.nil_append,
      writeChunks_cons_succ w i c [] fs d (by rw [batchAttempt_of_writer_ok w hw]),
      writeChunks_nil, batchAttempt_of_writer_ok w hw]
  | cons c2 cs ih =>
    intro c i fs d
    rw [List.cons_append,
      writeChunks_cons_succ w i c2 (cs ++ [c]) fs d (by rw [batchAttempt_of_writer_ok w hw])]
    exact ih c (i + 1) _ _

/-! ### Claim theorems -/

/-- Claim C5: called with an empty index name, the chunked importer
returns success false with error No index supplied (and no failures or
docCount fields), and its call trace is empty, i.e. no writer call is
issued, for every writer and every record sequence. -/
theorem C5_no_index_fails_fast (w : Nat → List α → Nat → BatchResp β) (data : List α) :
    chunkDataAndWriteToIndex w "" data =
      (⟨false, none, none, some "No index supplied"⟩, []) := by
  simp [chunkDataAndWriteToIndex]

/-- Claim C10: with a non-empty index and an empty record sequence, the
importer returns success true, empty failures, docCount 0 and no error,
and issues no writer call (empty call trace). -/
theorem C10_empty_import_noop (w : Nat → List α → Nat → BatchResp β) (index : String)
    (h : index ≠ "") :
    chunkDataAndWriteToIndex w index ([] : List α) =
      (⟨true, some [], some 0, none⟩, []) := by
  rw [chunkDataAndWriteToIndex_of_ne w index [] h]
  have hc : chunkList CHUNK_SIZE ([] : List α) = [] := by
    rw [chunkList, if_neg (by simp [CHUNK_SIZE]), chunkGo_nil]
  rw [hc, writeChunks_nil]
  rfl

/-- Witness for C10 at a concrete non-empty index. -/
theorem C10_empty_import_noop_witness :
    ("idx" : String) ≠ "" ∧
    chunkDataAndWriteToIndex failWriter "idx" ([] : List Nat) =
      (⟨true, some [], some 0, none⟩, []) :=
  ⟨by decide, C10_empty_import_noop failWriter "idx" (by decide)⟩

/-- Claim C4: for every non-empty record sequence, the importer's batch
split (chunkList at CHUNK_SIZE, which equals 10000) concatenates back to
the original sequence in order, every batch except possibly the last has
length exactly CHUNK_SIZE, and no batch is longer than CHUNK_SIZE. -/
theorem C4_chunking_partitions (data : List α) (_hd : data ≠ []) :
    CHUNK_SIZE = 10000 ∧
    (chunkList CHUNK_SIZE data).flatten = data ∧
    (∀ c ∈ (chunkList CHUNK_SIZE data).dropLast, c.length = CHUNK_SIZE) ∧
    (∀ c ∈ chunkList CHUNK_SIZE data, c.length ≤ CHUNK_SIZE) :=
  ⟨rfl, chunkList_flatten CHUNK_SIZE (by simp [CHUNK_SIZE]) data,
    chunkList_dropLast_length CHUNK_SIZE (by simp [CHUNK_SIZE]) data,
    chunkList_length_le CHUNK_SIZE data⟩

/-- Witness for C4 at a concrete non-empty record sequence. -/
theorem C4_chunking_partitions_witness :
    ([0] : List Nat) ≠ [] ∧
    (CHUNK_SIZE = 10000 ∧
      (chunkList CHUNK_SIZE ([0] : List Nat)).flatten = [0] ∧
      (∀ c ∈ (chunkList CHUNK_SIZE ([0] : List Nat)).dropLast, c.length = CHUNK_SIZE) ∧
      (∀ c ∈ chunkList CHUNK_SIZE ([0] : List Nat), c.length ≤ CHUNK_SIZE)) :=
  ⟨by decide, C4_chunking_partitions [0] (by decide)⟩

/-- Claim C6 as stated is refuted at the empty index name: the early
No index supplied return has success false but carries no docCount field
at all, so its document count is not zero. -/
theorem C6_counterexample :
    (chunkDataAndWriteToIndex failWriter "" [0]).1.success = false ∧
    (chunkDataAndWriteToIndex failWriter "" [0]).1.docCount ≠ some 0 := by
  decide

/-- Claim C6 amended: for every input whose index name is non-empty, the
returned result satisfies the invariant that success false implies a
docCount field equal to zero (prior successful batches' counts are
discarded by the zero reset). -/
theorem C6_failure_zeroes_docCount (w : Nat → List α → Nat → BatchResp β)
    (index : String) (data : List α) (hidx : index ≠ "")
    (hf : (chunkDataAndWriteToIndex w index data).1.success = false) :
    (chunkDataAndWriteToIndex w index data).1.docCount = some 0 := by
  rw [chunkDataAndWriteToIndex_of_ne w index data hidx] at hf ⊢
  exact congrArg some
    (writeChunks_success_false_docCount w (chunkList CHUNK_SIZE data) 0 [] 0 hf)

/-- Witness for the amended C6 on a concrete failing run. -/
theorem C6_failure_zeroes_docCount_witness :
    ("idx" : String) ≠ "" ∧
    (chunkDataAndWriteToIndex failWriter "idx" [0]).1.success = false ∧
    (chunkDataAndWriteToIndex failWriter "idx" [0]).1.docCount = some 0 :=
  ⟨by decide, by decide,
    C6_failure_zeroes_docCount failWriter "idx" [0] (by decide) (by decide)⟩

/-- Claim C2: if every batch before batch j eventually succeeds within
its retry budget and the writer reports failure on all IMPORT_RETRIES
attempts for batch j, then the importer issues exactly 5 writer calls for
batch j, processes no further batch (the call trace has exactly j + 1
entries), and returns success false, docCount 0, and the failing batch's
final error (subject to the truthiness filter on the error field). -/
theorem C2_failed_batch_aborts_import (w : Nat → List α → Nat → BatchResp β)
    (index : String) (data : List α) (j : Nat)
    (hidx : index ≠ "")
    (hj : j < (chunkList CHUNK_SIZE data).length)
    (hprev : ∀ k, k < j →
      (batchAttempt (w k ((chunkList CHUNK_SIZE data).getD k []))).1.success = true)
    (hfail : ∀ a, a < IMPORT_RETRIES →
      (w j ((chunkList CHUNK_SIZE data).getD j []) a).success = false) :
    (chunkDataAndWriteToIndex w index data).2.length = j + 1 ∧
    (chunkDataAndWriteToIndex w index data).2.getD j 0 = 5 ∧
    (chunkDataAndWriteToIndex w index data).1.success = false ∧
    (chunkDataAndWriteToIndex w index data).1.docCount = some 0 ∧
    (chunkDataAndWriteToIndex w index data).1.error =
      (if jsTruthy (w j ((chunkList CHUNK_SIZE data).getD j []) 4).error then
        (w j ((chunkList CHUNK_SIZE data).getD j []) 4).error else none) := by
  rw [chunkDataAndWriteToIndex_of_ne w index data hidx]
  have hba : batchAttempt (w j ((chunkList CHUNK_SIZE data).getD j [])) =
      (w j ((chunkList CHUNK_SIZE data).getD j []) 4, 5) :=
    batchAttempt_all_fail _ hfail
  have hfail2 : (batchAttempt (w (0 + j)
      ((chunkList CHUNK_SIZE data).getD j []))).1.success = false := by
    rw [Nat.zero_add, hba]
    exact hfail 4 (by simp [IMPORT_RETRIES])
  have hprev2 : ∀ k, k < j → (batchAttempt (w (0 + k)
      ((chunkList CHUNK_SIZE data).getD k []))).1.success = true := by
    intro k hk
    rw [Nat.zero_add]
    exact hprev k hk
  obtain ⟨r1, r2, r3, r4, r5⟩ :=
    writeChunks_fail_at w (chunkList CHUNK_SIZE data) 0 [] 0 j hj hprev2 hfail2
  rw [Nat.zero_add] at r3 r5
  refine ⟨r4, ?_, r1, congrArg some r2, ?_⟩
  · rw [r5, hba]
  · show (if jsTruthy (writeChunks w 0 (chunkList CHUNK_SIZE data) [] 0).1.error then
      (writeChunks w 0 (chunkList CHUNK_SIZE data) [] 0).1.error else none) = _
    rw [r3, hba]

/-- Witness for C2: a single-batch import against an always-failing
writer issues exactly 5 calls and aborts. -/
theorem C2_failed_batch_aborts_import_witness :
    (("idx" : String) ≠ "" ∧
      0 < (chunkList CHUNK_SIZE ([0] : List Nat)).length ∧
      (∀ a, a < IMPORT_RETRIES →
        (failWriter 0 ((chunkList CHUNK_SIZE ([0] : List Nat)).getD 0 []) a).success = false)) ∧
    ((chunkDataAndWriteToIndex failWriter "idx" [0]).2.length = 0 + 1 ∧
      (chunkDataAndWriteToIndex failWriter "idx" [0]).2.getD 0 0 = 5 ∧
      (chunkDataAndWriteToIndex failWriter "idx" [0]).1.success = false ∧
      (chunkDataAndWriteToIndex failWriter "idx" [0]).1.docCount = some 0 ∧
      (chunkDataAndWriteToIndex failWriter "idx" [0]).1.error =
        (if jsTruthy (failWriter 0 ((chunkList CHUNK_SIZE ([0] : List Nat)).getD 0 []) 4).error then
          (failWriter 0 ((chunkList CHUNK_SIZE ([0] : List Nat)).getD 0 []) 4).error
        else none)) :=
  ⟨⟨by decide, by decide, by decide⟩,
    C2_failed_batch_aborts_import failWriter "idx" [0] 0 (by decide) (by decide)
      (fun k hk => absurd hk (Nat.not_lt_zero k)) (by decide)⟩

/-- Claim C7: if every batch before batch j eventually succeeds, and for
batch j the writer fails on the attempts before attempt k and succeeds on
attempt k (1-based, k at most 5), then the importer issues exactly k
writer calls for batch j. -/
theorem C7_success_stops_batch_retries (w : Nat → List α → Nat → BatchResp β)
    (index : String) (data : List α) (j k : Nat)
    (hidx : index ≠ "") (hk1 : 1 ≤ k) (hk5 : k ≤ IMPORT_RETRIES)
    (hj : j < (chunkList CHUNK_SIZE data).length)
    (hprev : ∀ i, i < j →
      (batchAttempt (w i ((chunkList CHUNK_SIZE data).getD i []))).1.success = true)
    (hfa : ∀ a, a < k - 1 →
      (w j ((chunkList CHUNK_SIZE data).getD j []) a).success = false)
    (hsucc : (w j ((chunkList CHUNK_SIZE data).getD j []) (k - 1)).success = true) :
    (chunkDataAndWriteToIndex w index data).2.getD j 0 = k := by
  rw [chunkDataAndWriteToIndex_of_ne w index data hidx]
  have hk5b : k - 1 < IMPORT_RETRIES := by
    simp only [IMPORT_RETRIES] at hk5 ⊢
    omega
  have hba := batchAttempt_first_success (w j ((chunkList CHUNK_SIZE data).getD j []))
    (k - 1) hk5b hfa hsucc
  have hcalls := writeChunks_calls_getD w (chunkList CHUNK_SIZE data) 0 [] 0 j hj
    (fun t ht => by rw [Nat.zero_add]; exact hprev t ht)
  rw [Nat.zero_add] at hcalls
  show (writeChunks w 0 (chunkList CHUNK_SIZE data) [] 0).2.getD j 0 = k
  rw [hcalls, hba]
  show k - 1 + 1 = k
  omega

/-- Witness for C7: a writer that succeeds on the first attempt yields
exactly one call for the batch. -/
theorem C7_success_stops_batch_retries_witness :
    (("idx" : String) ≠ "" ∧
      0 < (chunkList CHUNK_SIZE ([0] : List Nat)).length ∧
      (okWriter 0 ((chunkList CHUNK_SIZE ([0] : List Nat)).getD 0 []) (1 - 1)).success = true) ∧
    (chunkDataAndWriteToIndex okWriter "idx" [0]).2.getD 0 0 = 1 :=
  ⟨⟨by decide, by decide, by decide⟩,
    C7_success_stops_batch_retries okWriter "idx" [0] 0 1 (by decide) (by decide) (by decide)
      (by decide) (fun i hi => absurd hi (Nat.not_lt_zero i))
      (fun a ha => absurd ha (Nat.not_lt_zero a)) (by decide)⟩

/-- Claim C1: for an import of 25000 records against a writer that always
succeeds reporting docCount equal to the batch length, the final docCount
is 5000, the size of the last batch, not the 25000 total: each successful
batch's count overwrites the previous cumulative value. -/
theorem C1_docCount_overwrites (data : List α) (w : Nat → List α → Nat → BatchResp β)
    (index : String) (hidx : index ≠ "") (hlen : data.length = 25000)
    (hw : ∀ i c a, w i c a = ⟨true, [], c.length, none⟩) :
    (chunkDataAndWriteToIndex w index data).1.docCount = some 5000 := by
  rw [chunkDataAndWriteToIndex_of_ne w index data hidx]
  have hd0 : data ≠ [] := by
    intro h
    rw [h] at hlen
    simp at hlen
  have hl1 : (data.drop 10000).length = 15000 := by
    rw [List.length_drop, hlen]
  have hd1 : data.drop 10000 ≠ [] := by
    intro h
    rw [h] at hl1
    simp at hl1
  have hl2 : ((data.drop 10000).drop 10000).length = 5000 := by
    rw [List.length_drop, hl1]
  have hd2 : (data.drop 10000).drop 10000 ≠ [] := by
    intro h
    rw [h] at hl2
    simp at hl2
  have hl3 : ((data.drop 10000).drop 10000).drop 10000 = [] := by
    rw [List.drop_eq_nil_iff]
    omega
  have hchunks : chunkList CHUNK_SIZE data =
      [data.take 10000, (data.drop 10000).take 10000] ++ [(data.drop 10000).drop 10000] := by
    rw [chunkList, if_neg (by simp [CHUNK_SIZE])]
    simp only [CHUNK_SIZE]
    rw [hlen]
    rw [show (25000 : Nat) = 24999 + 1 from rfl, chunkGo_cons 10000 data 24999 hd0]
    rw [show (24999 : Nat) = 24998 + 1 from rfl,
      chunkGo_cons 10000 (data.drop 10000) 24998 hd1]
    rw [show (24998 : Nat) = 24997 + 1 from rfl,
      chunkGo_cons 10000 ((data.drop 10000).drop 10000) 24997 hd2]
    have htake : List.take 10000 ((data.drop 10000).drop 10000) =
        (data.drop 10000).drop 10000 := List.take_of_length_le (by omega)
    rw [hl3, chunkGo_nil, htake]
    rfl
  rw [hchunks]
  show some ((writeChunks w 0
    ([data.take 10000, (data.drop 10000).take 10000] ++ [(data.drop 10000).drop 10000])
    [] 0).1.docCount) = some 5000
  rw [writeChunks_last_docCount w hw, hl2]

/-- Witness for C1 on 25000 concrete records. -/
theorem C1_docCount_overwrites_witness :
    (List.replicate 25000 (0 : Nat)).length = 25000 ∧
    (chunkDataAndWriteToIndex okWriter "idx" (List.replicate 25000 0)).1.docCount = some 5000 :=
  ⟨by rw [List.length_replicate], C1_docCount_overwrites (List.replicate 25000 0) okWriter "idx"
    (by decide) (by rw [List.length_replicate]) (fun i c a => rfl)⟩

/-- Claim C3 as stated is refuted by a retried batch: the writer's first
attempt on the only batch reports the per-document failure 7, the batch
is retried and succeeds, and the final failures list is empty, so a
failure reported by an attempt within a retried batch is not preserved. -/
theorem C3_counterexample :
    retryOnceWriter 0 ((chunkList CHUNK_SIZE ([0] : List Nat)).getD 0 []) 0 =
      ⟨false, [7], 0, none⟩ ∧
    (chunkDataAndWriteToIndex retryOnceWriter "idx" [0]).1.success = true ∧
    (chunkDataAndWriteToIndex retryOnceWriter "idx" [0]).1.failures = some [] := by
  decide

/-- Claim C3 amended: for every input with a non-empty index, the final
failures list is exactly the concatenation, over the processed batches in
order, of the failures reported by each batch's final write attempt —
merged regardless of whether the batch succeeded or failed (so the last,
abandoned batch's failures are included), while failures reported by
earlier, superseded attempts within a batch are discarded. -/
theorem C3_final_attempt_failures_merged (w : Nat → List α → Nat → BatchResp β)
    (index : String) (data : List α) (hidx : index ≠ "") :
    (chunkDataAndWriteToIndex w index data).1.failures =
      some (((List.range (chunkDataAndWriteToIndex w index data).2.length).map
        (fun j => (batchAttempt (w j ((chunkList CHUNK_SIZE data).getD j []))).1.failures)).flatten) := by
  rw [chunkDataAndWriteToIndex_of_ne w index data hidx]
  show some ((writeChunks w 0 (chunkList CHUNK_SIZE data) [] 0).1.failures) =
    some (((List.range (writeChunks w 0 (chunkList CHUNK_SIZE data) [] 0).2.length).map
      (fun j => (batchAttempt (w j ((chunkList CHUNK_SIZE data).getD j []))).1.failures)).flatten)
  rw [writeChunks_failures w (chunkList CHUNK_SIZE data) 0 [] 0, List.nil_append]
  have hfun : (fun j => (batchAttempt (w (0 + j)
      ((chunkList CHUNK_SIZE data).getD j []))).1.failures) =
      fun j => (batchAttempt (w j ((chunkList CHUNK_SIZE data).getD j []))).1.failures := by
    funext j
    rw [Nat.zero_add]
  rw [hfun]

/-- Witness for the amended C3: a two-chunk run of the sample writers,
exercising the failure-merge formula on a concrete input. -/
theorem C3_final_attempt_failures_merged_witness :
    ("idx" : String) ≠ "" ∧
    (chunkDataAndWriteToIndex retryOnceWriter "idx" [0]).1.failures =
      some (((List.range (chunkDataAndWriteToIndex retryOnceWriter "idx" [0]).2.length).map
        (fun j => (batchAttempt (retryOnceWriter j
          ((chunkList CHUNK_SIZE ([0] : List Nat)).getD j []))).1.failures)).flatten) :=
  ⟨by decide, C3_final_attempt_failures_merged retryOnceWriter "idx" [0] (by decide)⟩

/-- Claim C8 as stated is refuted by the empty-string tag: it is a plain
tag outside the known set, yet the resolver's falsiness guard fires first
and reports No transform defined instead of the interpolated
unhandled-tag message. -/
theorem C8_counterexample :
    transformDataByFormatForIndexing (fun _ _ => (none : Option (IndexingDetails Nat)))
      (fun _ _ => none) (Transform.tag "" : Transform Unit) () () =
      ⟨false, none, some "No transform defined"⟩ ∧
    "No transform defined" ≠ "No handling defined for transform: " := by
  decide

/-- Claim C8 amended: for every non-empty plain tag outside the known set
(which is just the geo tag), the resolver fails with the unhandled-tag
message carrying the tag name, for all transform implementations and
inputs. -/
theorem C8_unknown_tag_fails (getGeo : φ → σ → Option (IndexingDetails α))
    (getCustom : γ → φ → Option (IndexingDetails α)) (s : String) (pf : φ) (dt : σ)
    (hs0 : s ≠ "") (hgeo : s ≠ "geo") :
    transformDataByFormatForIndexing getGeo getCustom (Transform.tag s) pf dt =
      ⟨false, none, some ("No handling defined for transform: " ++ s)⟩ := by
  have hfalsy : (Transform.tag s : Transform γ).falsy = false := by
    simp [Transform.falsy, hs0]
  rw [transformDataByFormatForIndexing, hfalsy]
  simp only [Bool.false_eq_true, if_false]
  rw [if_neg hgeo]

/-- Witness for the amended C8 at the tag string from the claim. -/
theorem C8_unknown_tag_fails_witness :
    ("unknown" : String) ≠ "" ∧ ("unknown" : String) ≠ "geo" ∧
    transformDataByFormatForIndexing (fun _ _ => (none : Option (IndexingDetails Nat)))
      (fun _ _ => none) (Transform.tag "unknown" : Transform Unit) () () =
      ⟨false, none, some "No handling defined for transform: unknown"⟩ :=
  ⟨by decide, by decide,
    (C8_unknown_tag_fails (fun _ _ => (none : Option (IndexingDetails Nat))) (fun _ _ => none)
      "unknown" () () (by decide) (by decide)).trans (by decide)⟩

/-- Claim C9 as stated is refuted: with a file present and a missing
transform descriptor, indexData throws the wrapped transform error, which
is neither of the two faults the claim allows (there is no separate
no-processor-defined fault in this entry point). -/
theorem C9_counterexample :
    indexData okWriter (some "id") (fun _ _ => (none : Option (IndexingDetails Nat)))
      (fun _ _ => none) (some ()) (Transform.missing : Transform Unit) "idx" () =
      Except.error "Error transforming data: No transform defined" ∧
    "Error transforming data: No transform defined" ≠ "No file imported" ∧
    "Error transforming data: No transform defined" ≠ "No processor defined" := by
  refine ⟨rfl, by decide, by decide⟩

/-- Claim C9 amended: every run of indexData either returns a structured
ImportResult value, or throws exactly one of: the fail-fast No file
imported, a wrapped transform error (Error transforming data: followed by
the resolver's message, covering missing, unsupported and failed
transforms), or Error creating index. -/
theorem C9_faults_classified (w : Nat → List α → Nat → BatchResp β) (createId : Option String)
    (getGeo : φ → σ → Option (IndexingDetails α))
    (getCustom : γ → φ → Option (IndexingDetails α))
    (parsedFile : Option φ) (transform : Transform γ) (indexName : String) (dataType : σ) :
    (∃ r, indexData w createId getGeo getCustom parsedFile transform indexName dataType =
      Except.ok r) ∨
    indexData w createId getGeo getCustom parsedFile transform indexName dataType =
      Except.error "No file imported" ∨
    (∃ s, indexData w createId getGeo getCustom parsedFile transform indexName dataType =
      Except.error ("Error transforming data: " ++ s)) ∨
    indexData w createId getGeo getCustom parsedFile transform indexName dataType =
      Except.error "Error creating index" := by
  cases parsedFile with
  | none =>
    right; left
    rfl
  | some pf =>
    by_cases ht : (transformDataByFormatForIndexing getGeo getCustom transform pf
        dataType).success = false
    · right; right; left
      refine ⟨(transformDataByFormatForIndexing getGeo getCustom transform pf
        dataType).error.getD "undefined", ?_⟩
      simp [indexData, ht]
    · by_cases hc : jsTruthy createId = false
      · right; right; right
        simp [indexData, ht, hc]
      · left
        have hc2 : jsTruthy createId = true := by
          revert hc
          cases jsTruthy createId <;> simp
        refine ⟨(chunkDataAndWriteToIndex w indexName
          (((transformDataByFormatForIndexing getGeo getCustom transform pf
            dataType).indexingDetails.map IndexingDetails.data).getD [])).1, ?_⟩
        simp [indexData, ht, hc2]

end FileUpload
